import Mathlib

/-!
Shallow embedding of `src/index.js` of karma-edge-chromium-launcher:
flag classification and sanitization, the option builders for the
headless and canary variants, the Windows executable resolver, the
WSL bridge decision in `_start`, the stderr PID-recovery handler and
the `kill` hook.  JavaScript strings are modelled as Lean `String`
(with `List Char` workhorse functions); nullable values as `Option`;
filesystem and process effects as explicit oracles.
-/

set_option autoImplicit false

namespace KarmaEdge

/-- Boolean "does `pat` start the list `s`" (JS `indexOf === 0` on the
match position, also the building block for regex-style scanning). -/
def startsWithL : List Char → List Char → Bool
  | [], _ => true
  | _ :: _, [] => false
  | a :: as, b :: bs => a == b && startsWithL as bs

/-- Boolean "does `pat` occur contiguously somewhere in `s`"
(JS `String.prototype.indexOf(pat) !== -1`). -/
def containsSub (pat : List Char) : List Char → Bool
  | [] => startsWithL pat []
  | c :: rest => startsWithL pat (c :: rest) || containsSub pat rest

/-- The literal `--js-flags=` (11 characters). -/
def jsFlagsChars : List Char := "--js-flags=".data

/-- The two quote characters of the character class in the regex
`--js-flags=(['"])` (src/index.js line 15). -/
def isQuoteChar (c : Char) : Bool := c == '\'' || c == '"'

/-- `isJSFlags(flag)`: `flag.indexOf('--js-flags=') === 0`
(src/index.js lines 10-12). -/
def isJSFlags (flag : String) : Bool := startsWithL jsFlagsChars flag.data

/-- Does the regex `--js-flags=(['"])` match at the very start of `s`?
Returns the captured quote character on success. -/
def matchHere (s : List Char) : Option Char :=
  if startsWithL jsFlagsChars s then
    match s.drop jsFlagsChars.length with
    | q :: _ => if isQuoteChar q then some q else none
    | [] => none
  else none

/-- `exec` of the regex `--js-flags=(['"])` on `flag`: scan left to
right for the first position where the pattern matches; return the
captured quote. -/
def execTest : List Char → Option Char
  | [] => none
  | c :: rest =>
    match matchHere (c :: rest) with
    | some q => some q
    | none => execTest rest

/-- `flag.replace(new RegExp("--js-flags=" + escapeChar), "--js-flags=")`:
delete the quote character at the first occurrence of
`--js-flags=<q>` (src/index.js lines 21-22); no occurrence, no change. -/
def replaceStart (q : Char) : List Char → List Char
  | [] => []
  | c :: rest =>
    if startsWithL (jsFlagsChars ++ [q]) (c :: rest) then
      jsFlagsChars ++ (c :: rest).drop (jsFlagsChars.length + 1)
    else c :: replaceStart q rest

/-- `flag.replace(new RegExp(escapeChar + "$"), "")`: drop a final `q`
when the string ends with it (src/index.js lines 20, 22). -/
def stripEnd (q : Char) (s : List Char) : List Char :=
  if s.getLast? = some q then s.dropLast else s

/-- `sanitizeJSFlags` on character lists (src/index.js lines 14-23). -/
def sanitizeJSFlagsL (s : List Char) : List Char :=
  match execTest s with
  | none => s
  | some q => stripEnd q (replaceStart q s)

/-- `sanitizeJSFlags(flag)` (src/index.js lines 14-23). -/
def sanitizeJSFlags (flag : String) : String := ⟨sanitizeJSFlagsL flag.data⟩

/-! Option builders (src/index.js lines 137-164, 174-198). -/

/-- The nine fixed options returned by `EdgeBrowser._getOptions` ahead
of the user flags (src/index.js lines 183-197). -/
def defaultEdgeOptions : List String :=
  ["--enable-automation",
   "--no-default-browser-check",
   "--no-first-run",
   "--disable-default-apps",
   "--disable-popup-blocking",
   "--disable-translate",
   "--disable-background-timer-throttling",
   "--disable-renderer-backgrounding",
   "--disable-device-discovery-notifications"]

/-- The in-place rewrite `flags.forEach((flag, i) => { if (isJSFlags(flag))
flags[i] = sanitizeJSFlags(flag) })` performed by `_getOptions` on the
caller's array (src/index.js lines 177-181): contents of the array after
the call. -/
def flagsAfterGetOptions (flags : List String) : List String :=
  flags.map (fun f => if isJSFlags f then sanitizeJSFlags f else f)

/-- `EdgeBrowser._getOptions()` return value (src/index.js lines 174-198):
the nine defaults concatenated with the (now sanitized) flags array. -/
def edgeGetOptions (flags : List String) : List String :=
  defaultEdgeOptions ++ flagsAfterGetOptions flags

/-- `isRemoteDebuggingFlag`: `(flag || '').indexOf('--remote-debugging-port=')
!== -1` (src/index.js line 146). -/
def isRemoteDebuggingFlag (flag : String) : Bool :=
  containsSub "--remote-debugging-port=".data flag.data

/-- The three flags concatenated by `getHeadlessOptions`
(src/index.js lines 139-141). -/
def headlessExtras : List String :=
  ["--headless", "--disable-gpu", "--disable-dev-shm-usage"]

/-- `getHeadlessOptions(url, args, parent)` (src/index.js lines 137-149),
with the parent call's result passed in as `parentOpts` and the WSL
detection as `wsl`. -/
def getHeadlessOptions (parentOpts : List String) (wsl : Bool) : List String :=
  let mergedArgs := parentOpts ++ headlessExtras
  let mergedArgs := if wsl then mergedArgs ++ ["--no-sandbox"] else mergedArgs
  if mergedArgs.any isRemoteDebuggingFlag then mergedArgs
  else mergedArgs ++ ["--remote-debugging-port=9222"]

/-- The two tokens of `customFlags` in `getCanaryOptions`
(src/index.js line 155). -/
def customFlags : String := "--nocrankshaft --noopt"

/-- The `flags.forEach` loop of `getCanaryOptions` (src/index.js lines
157-161): `augmentedFlags` after the loop, `none` when it was never
assigned (each matching flag overwrites, so the last one wins). -/
def canaryAugmented (flags : List String) : Option String :=
  flags.foldl
    (fun acc flag =>
      if isJSFlags flag then some (sanitizeJSFlags flag ++ " " ++ customFlags)
      else acc)
    none

/-- JS `a || d` on a possibly-undefined string `a`: `d` when `a` is
undefined or the empty string. -/
def jsOrElse (a : Option String) (d : String) : String :=
  match a with
  | some s => if s = "" then d else s
  | none => d

/-- `getCanaryOptions(url, args, parent)` (src/index.js lines 151-164):
`parent.call(this, url).concat([augmentedFlags || "--js-flags=" +
customFlags])`. -/
def getCanaryOptions (parentOpts : List String) (flags : List String) : List String :=
  parentOpts ++ [jsOrElse (canaryAugmented flags) ("--js-flags=" ++ customFlags)]

/-! Windows executable resolution (src/index.js lines 42-66). -/

/-- `path.join(prefixDir, suffixPath)` on win32. -/
def pathJoinWin (a b : String) : String := a ++ "\\" ++ b

/-- The fixed suffix `Microsoft\<edgeDirName>\Application\msedge.exe`
(src/index.js line 51). -/
def edgeExeSuffix (edgeDirName : String) : String :=
  "Microsoft\\" ++ edgeDirName ++ "\\Application\\msedge.exe"

/-- The probe loop of `getEdgeExe` (src/index.js lines 55-65).
`fsAccess` models `fs.accessSync` succeeding; a `none` entry models an
undefined environment variable, on which `path.join` throws — caught by
the `try`, leaving `windowsEdgeDirectory` (`last`) unassigned for that
iteration.  Falling off the loop returns the last computed candidate. -/
def getEdgeExeLoop (fsAccess : String → Bool) (sfx : String) :
    List (Option String) → Option String → Option String
  | [], last => last
  | p :: rest, last =>
    match p with
    | none => getEdgeExeLoop fsAccess sfx rest last
    | some pre =>
      let candidate := pathJoinWin pre sfx
      if fsAccess candidate then some candidate
      else getEdgeExeLoop fsAccess sfx rest (some candidate)

/-- `getEdgeExe(edgeDirName)` (src/index.js lines 42-66): `null` off
win32, otherwise the probe loop over `LOCALAPPDATA`, `PROGRAMFILES`,
`PROGRAMFILES(X86)`. -/
def getEdgeExe (platformWin32 : Bool) (fsAccess : String → Bool)
    (localAppData programFiles programFilesX86 : Option String)
    (edgeDirName : String) : Option String :=
  if platformWin32 then
    getEdgeExeLoop fsAccess (edgeExeSuffix edgeDirName)
      [localAppData, programFiles, programFilesX86] none
  else none

/-! The `_start` bridge decision (src/index.js lines 261-277). -/

/-- Which spawn path `_start` takes. -/
inductive LaunchMode : Type where
  | bridge : LaunchMode
  | native : LaunchMode
deriving DecidableEq

/-- JS truthiness of a possibly-undefined string (`undefined` and `""`
are falsy). -/
def jsTruthyStr : Option String → Bool
  | none => false
  | some s => !(s = "")

/-- The branch structure of `_start` (src/index.js lines 261-277):
`isWsl` the WSL detection, `linuxCmd` this variant's
`DEFAULT_CMD.linux`, `whichFound` whether `which.sync(linuxCmd,
{nothrow: true})` found it, `opts` the result of `this._getOptions()`,
`display` the `DISPLAY` environment variable. -/
def startLaunchMode (isWsl : Bool) (linuxCmd : Option String) (whichFound : Bool)
    (opts : List String) (display : Option String) : LaunchMode :=
  if isWsl then
    if !(jsTruthyStr linuxCmd) || !whichFound then LaunchMode.bridge
    else
      if !(opts.contains "--headless") && !(jsTruthyStr display) then LaunchMode.bridge
      else LaunchMode.native
  else LaunchMode.native

/-! The stderr PID-recovery handler (src/index.js lines 280-292). -/

/-- The sentinel marker emitted by the bridge shell script
(src/index.js line 239). -/
def sentinelMarker : List Char := "BROWSERBROWSERBROWSERBROWSER".data

/-- JS regex `\s` on the ASCII whitespace characters (the sentinel line
only ever contains a space). -/
def isJsSpace (c : Char) : Bool :=
  c == ' ' || c == '\t' || c == '\n' || c == '\r' || c == '\x0b' || c == '\x0c'

/-- `parseInt(digits, 10)` on a digit run. -/
def digitsToNat (ds : List Char) : Nat :=
  ds.foldl (fun n c => 10 * n + (c.toNat - 48)) 0

/-- Does the regex `BROWSERBROWSERBROWSERBROWSER\s+debug me @ (\d+)`
match at the start of `s`?  Returns the captured PID.  (`\s+` is
maximal-munch here: every shorter whitespace run leaves a whitespace
character where the literal `d` of `debug` is required, so backtracking
never helps.) -/
def matchSentinelAt (s : List Char) : Option Nat :=
  if startsWithL sentinelMarker s then
    let rest := s.drop sentinelMarker.length
    let ws := rest.takeWhile isJsSpace
    if ws.isEmpty then none
    else
      let rest2 := rest.drop ws.length
      if startsWithL "debug me @ ".data rest2 then
        let digits := (rest2.drop 11).takeWhile Char.isDigit
        if digits.isEmpty then none else some (digitsToNat digits)
      else none
  else none

/-- `errString.match(re)` for the sentinel regex: first match scanning
left to right. -/
def matchSentinel : List Char → Option Nat
  | [] => none
  | c :: rest =>
    match matchSentinelAt (c :: rest) with
    | some n => some n
    | none => matchSentinel rest

/-- One invocation of the `stderr.on('data')` handler (src/index.js
lines 280-292): a fresh `StringDecoder` decodes this chunk alone, the
regex is matched against this chunk alone, and `browserProcessPid` is
reassigned only on a match. -/
def onStderrChunk (browserProcessPid : Option Nat) (chunk : List Char) : Option Nat :=
  match matchSentinel chunk with
  | some n => some n
  | none => browserProcessPid

/-- `browserProcessPid` after the handler has run on each chunk of the
stream in order, starting from the undefined initial value. -/
def processStderrChunks (chunks : List (List Char)) : Option Nat :=
  chunks.foldl onStderrChunk none

/-! The `kill` hook (src/index.js lines 295-309). -/

/-- JS truthiness of `browserProcessPid` (`undefined` and `0` are
falsy). -/
def jsTruthyNat : Option Nat → Bool
  | none => false
  | some n => !(n = 0)

/-- Observable outcome of one run of the `kill` handler. -/
structure KillOutcome : Type where
  /-- PID the termination call targeted; `none` = no termination action. -/
  killedPid : Option Nat
  /-- Termination went through `Taskkill.exe` (bridge) rather than
  `process.kill` (native). -/
  viaTaskkill : Bool
  /-- Did an exception escape the handler? -/
  threw : Bool
  /-- How many times `process.nextTick(done)` scheduled the completion
  callback. -/
  callbackTicks : Nat
deriving DecidableEq

/-- The attempted termination call (src/index.js lines 299-301); the
oracle says whether `exec`/`process.kill` throws for this PID. -/
def terminationAttempt (pid : Nat) (throws : Nat → Bool) : Except String Unit :=
  if throws pid then Except.error "kill failed" else Except.ok ()

/-- The `try { ... } catch (e) { }` around the termination call
(src/index.js lines 298-305): whatever the call did, no exception
escapes. -/
def catchDiscard (e : Except String Unit) : Bool :=
  match e with
  | Except.ok _ => false
  | Except.error _ => false

/-- The `'kill'` handler (src/index.js lines 295-309): test
`browserProcessPid` for truthiness, attempt termination inside
`try`/`catch`, then `process.nextTick(done)`. -/
def killHandler (windowsUsed : Bool) (browserProcessPid : Option Nat)
    (throws : Nat → Bool) : KillOutcome :=
  match browserProcessPid with
  | some pid =>
    if pid = 0 then
      { killedPid := none, viaTaskkill := false, threw := false, callbackTicks := 1 }
    else
      { killedPid := some pid
        viaTaskkill := windowsUsed
        threw := catchDiscard (terminationAttempt pid throws)
        callbackTicks := 1 }
  | none =>
    { killedPid := none, viaTaskkill := false, threw := false, callbackTicks := 1 }

/-! Helper lemmas about the string scanners. -/

theorem startsWithL_iff (l s : List Char) :
    startsWithL l s = true ↔ ∃ t, s = l ++ t := by
  induction l generalizing s with
  | nil => simp [startsWithL]
  | cons a as ih =>
    cases s with
    | nil => simp [startsWithL]
    | cons b bs =>
      simp only [startsWithL, Bool.and_eq_true, beq_iff_eq, ih, List.cons_append]
      constructor
      · rintro ⟨rfl, t, rfl⟩
        exact ⟨t, rfl⟩
      · rintro ⟨t, ht⟩
        injection ht with h1 h2
        exact ⟨h1.symm, t, h2⟩

theorem startsWithL_append (l s : List Char) : startsWithL l (l ++ s) = true :=
  (startsWithL_iff l (l ++ s)).mpr ⟨s, rfl⟩

theorem containsSub_iff (pat s : List Char) :
    containsSub pat s = true ↔ ∃ u t, s = u ++ pat ++ t := by
  induction s with
  | nil =>
    simp only [containsSub, startsWithL_iff]
    constructor
    · rintro ⟨t, ht⟩
      exact ⟨[], t, by simpa using ht⟩
    · rintro ⟨u, t, ht⟩
      rcases List.append_eq_nil.mp ht.symm with ⟨h1, h2⟩
      rcases List.append_eq_nil.mp h1 with ⟨h3, h4⟩
      subst h2
      subst h4
      exact ⟨[], by simp⟩
  | cons c rest ih =>
    simp only [containsSub, Bool.or_eq_true, startsWithL_iff, ih]
    constructor
    · rintro (⟨t, ht⟩ | ⟨u, t, ht⟩)
      · exact ⟨[], t, by simpa using ht⟩
      · exact ⟨c :: u, t, by simp [ht]⟩
    · rintro ⟨u, t, ht⟩
      cases u with
      | nil => exact Or.inl ⟨t, by simpa using ht⟩
      | cons d u' =>
        refine Or.inr ⟨u', t, ?_⟩
        have hcons : c :: rest = d :: (u' ++ (pat ++ t)) := by simpa using ht
        injection hcons with h1 h2
        simpa using h2

theorem jsFlagsChars_length : jsFlagsChars.length = 11 := rfl

theorem countP_isQuote_jsFlagsChars : jsFlagsChars.countP isQuoteChar = 0 := by decide

/-! Lemmas about the sanitizer pieces. -/

theorem matchHere_nil : matchHere [] = none := rfl

theorem matchHere_pfx (q : Char) (t : List Char) (hq : isQuoteChar q = true) :
    matchHere (jsFlagsChars ++ q :: t) = some q := by
  unfold matchHere
  rw [if_pos (startsWithL_append jsFlagsChars (q :: t)), List.drop_left]
  simp [hq]

theorem matchHere_some {s : List Char} {q : Char} (h : matchHere s = some q) :
    isQuoteChar q = true ∧ ∃ t, s = jsFlagsChars ++ q :: t := by
  unfold matchHere at h
  split at h
  case isTrue hsw =>
    obtain ⟨t, rfl⟩ := (startsWithL_iff _ _).mp hsw
    rw [List.drop_left] at h
    cases t with
    | nil => simp at h
    | cons q' t' =>
      have h' : (if isQuoteChar q' = true then some q' else none) = some q := h
      by_cases hq' : isQuoteChar q' = true
      · rw [if_pos hq'] at h'
        injection h' with h1
        subst h1
        exact ⟨hq', t', rfl⟩
      · rw [if_neg hq'] at h'
        simp at h'
  case isFalse hsw => simp at h

theorem execTest_of_matchHere {s : List Char} {q : Char}
    (h : matchHere s = some q) : execTest s = some q := by
  cases s with
  | nil => rw [matchHere_nil] at h; exact absurd h (by simp)
  | cons c rest => simp [execTest, h]

theorem execTest_some {s : List Char} {q : Char} (h : execTest s = some q) :
    isQuoteChar q = true ∧ containsSub (jsFlagsChars ++ [q]) s = true := by
  induction s with
  | nil => simp [execTest] at h
  | cons c rest ih =>
    unfold execTest at h
    cases hm : matchHere (c :: rest) with
    | some q' =>
      simp only [hm, Option.some.injEq] at h
      subst h
      obtain ⟨hq, t, ht⟩ := matchHere_some hm
      refine ⟨hq, ?_⟩
      have hsw : startsWithL (jsFlagsChars ++ [q']) (c :: rest) = true := by
        rw [startsWithL_iff]
        exact ⟨t, by simp [ht]⟩
      simp [containsSub, hsw]
    | none =>
      simp only [hm] at h
      obtain ⟨hq, hc⟩ := ih h
      refine ⟨hq, ?_⟩
      simp [containsSub, hc]

theorem replaceStart_pos {q : Char} {s : List Char}
    (h : startsWithL (jsFlagsChars ++ [q]) s = true) :
    replaceStart q s = jsFlagsChars ++ s.drop (jsFlagsChars.length + 1) := by
  cases s with
  | nil =>
    obtain ⟨t, ht⟩ := (startsWithL_iff _ _).mp h
    have hlen := congrArg List.length ht
    simp [jsFlagsChars_length] at hlen
    omega
  | cons c rest =>
    unfold replaceStart
    rw [if_pos h]

theorem replaceStart_cons_neg {q c : Char} {rest : List Char}
    (h : startsWithL (jsFlagsChars ++ [q]) (c :: rest) = false) :
    replaceStart q (c :: rest) = c :: replaceStart q rest := by
  show (if startsWithL (jsFlagsChars ++ [q]) (c :: rest) = true then
      jsFlagsChars ++ (c :: rest).drop (jsFlagsChars.length + 1)
    else c :: replaceStart q rest) = c :: replaceStart q rest
  rw [if_neg (by simp [h])]

theorem replaceStart_prefix_quote (q : Char) (t : List Char) :
    replaceStart q (jsFlagsChars ++ q :: t) = jsFlagsChars ++ t := by
  have hshape : jsFlagsChars ++ q :: t = (jsFlagsChars ++ [q]) ++ t := by simp
  have hsw : startsWithL (jsFlagsChars ++ [q]) (jsFlagsChars ++ q :: t) = true := by
    rw [hshape]; exact startsWithL_append _ _
  rw [replaceStart_pos hsw, hshape, List.drop_left' (by simp [jsFlagsChars_length])]

theorem replaceStart_countP {q : Char} {s : List Char}
    (hq : isQuoteChar q = true)
    (hc : containsSub (jsFlagsChars ++ [q]) s = true) :
    (replaceStart q s).countP isQuoteChar + 1 = s.countP isQuoteChar := by
  induction s with
  | nil =>
    obtain ⟨u, t, ht⟩ := (containsSub_iff _ _).mp hc
    have hlen := congrArg List.length ht
    simp [jsFlagsChars_length] at hlen
    omega
  | cons c rest ih =>
    by_cases hsw : startsWithL (jsFlagsChars ++ [q]) (c :: rest) = true
    · obtain ⟨t, ht⟩ := (startsWithL_iff _ _).mp hsw
      have hdrop : (c :: rest).drop (jsFlagsChars.length + 1) = t := by
        rw [ht]
        exact List.drop_left' (by simp [jsFlagsChars_length])
      rw [replaceStart_pos hsw, ht]
      simp [List.countP_append, List.countP_cons, countP_isQuote_jsFlagsChars, hq]
    · rw [Bool.not_eq_true] at hsw
      have hrest : containsSub (jsFlagsChars ++ [q]) rest = true := by
        have := hc
        simp only [containsSub, hsw, Bool.false_or] at this
        exact this
      rw [replaceStart_cons_neg hsw]
      rw [List.countP_cons, List.countP_cons]
      have := ih hrest
      omega

theorem stripEnd_countP_le (q : Char) (s : List Char) :
    (stripEnd q s).countP isQuoteChar ≤ s.countP isQuoteChar := by
  unfold stripEnd
  split
  · exact (List.dropLast_sublist s).countP_le _
  · exact Nat.le_refl _

theorem sanitizeJSFlagsL_countP {s : List Char} {q : Char}
    (h : execTest s = some q) :
    (sanitizeJSFlagsL s).countP isQuoteChar + 1 ≤ s.countP isQuoteChar := by
  obtain ⟨hq, hc⟩ := execTest_some h
  simp only [sanitizeJSFlagsL, h]
  have h1 := stripEnd_countP_le q (replaceStart q s)
  have h2 := replaceStart_countP hq hc
  omega

theorem execTest_none_of_countP_zero {s : List Char}
    (h : s.countP isQuoteChar = 0) : execTest s = none := by
  cases hq : execTest s with
  | none => rfl
  | some q =>
    obtain ⟨hquote, hc⟩ := execTest_some hq
    obtain ⟨u, t, rfl⟩ := (containsSub_iff _ _).mp hc
    rw [List.countP_append, List.countP_append, List.countP_append,
      List.countP_cons, countP_isQuote_jsFlagsChars] at h
    simp [hquote] at h

theorem stringMkData (s : String) : (⟨s.data⟩ : String) = s := rfl

theorem sanitizeJSFlags_eq_self_of_execTest_none {flag : String}
    (h : execTest flag.data = none) : sanitizeJSFlags flag = flag := by
  show (⟨sanitizeJSFlagsL flag.data⟩ : String) = flag
  unfold sanitizeJSFlagsL
  rw [h]

theorem catchDiscard_eq_false (e : Except String Unit) : catchDiscard e = false := by
  cases e <;> rfl

/-! Claim theorems. -/

/-- Claim C1: under WSL the Windows bridge is used iff the native Linux
browser binary is absent (falsy `DEFAULT_CMD.linux`, or `which` not
finding it), or it is present but the built options do not request
headless mode and no `DISPLAY` environment variable is set; in every
other WSL case the launch is native, and outside WSL it is always
native (src/index.js lines 261-277). -/
theorem wsl_bridge_decision (isWsl : Bool) (linuxCmd : Option String)
    (whichFound : Bool) (opts : List String) (display : Option String) :
    (startLaunchMode isWsl linuxCmd whichFound opts display = LaunchMode.bridge ↔
      isWsl = true ∧
        ((jsTruthyStr linuxCmd = false ∨ whichFound = false) ∨
          ((jsTruthyStr linuxCmd = true ∧ whichFound = true) ∧
            opts.contains "--headless" = false ∧ jsTruthyStr display = false)))
    ∧ (isWsl = false →
        startLaunchMode isWsl linuxCmd whichFound opts display = LaunchMode.native)
    ∧ (startLaunchMode isWsl linuxCmd whichFound opts display = LaunchMode.bridge ∨
        startLaunchMode isWsl linuxCmd whichFound opts display = LaunchMode.native) := by
  cases isWsl <;>
    cases whichFound <;>
      cases htr : jsTruthyStr linuxCmd <;>
        cases hct : opts.contains "--headless" <;>
          cases hd : jsTruthyStr display <;>
            simp_all [startLaunchMode]

/-- Closed witness for C1: outside WSL the launch is native. -/
theorem wsl_bridge_decision_witness :
    startLaunchMode false none false [] none = LaunchMode.native :=
  (wsl_bridge_decision false none false [] none).2.1 rfl

/-- Claim C2: with no recovered PID the kill hook performs no
termination action, never throws, and schedules its completion callback
exactly once on the next tick; with a recovered PID any exception from
the termination call is caught and discarded and the callback is still
scheduled exactly once (src/index.js lines 295-309). -/
theorem kill_handler_safe (windowsUsed : Bool) (throws : Nat → Bool) :
    killHandler windowsUsed none throws =
      { killedPid := none, viaTaskkill := false, threw := false, callbackTicks := 1 }
    ∧ ∀ pid : Nat,
        (killHandler windowsUsed (some pid) throws).threw = false
        ∧ (killHandler windowsUsed (some pid) throws).callbackTicks = 1 := by
  refine ⟨rfl, fun pid => ?_⟩
  by_cases h : pid = 0 <;> simp [killHandler, h, catchDiscard_eq_false]

/-- Claim C3 (amended): when the value right after `--js-flags=` opens
with a quote matched by the same character at the end of the string,
`sanitizeJSFlags` strips exactly that leading and trailing quote; with
unterminated or mismatched quoting it still strips the leading quote
and keeps the rest (src/index.js lines 14-23). -/
theorem sanitizeJSFlags_spec (q : Char) (body : List Char)
    (hq : isQuoteChar q = true) :
    sanitizeJSFlags ⟨jsFlagsChars ++ q :: (body ++ [q])⟩ = ⟨jsFlagsChars ++ body⟩
    ∧ (body.getLast? ≠ some q →
        sanitizeJSFlags ⟨jsFlagsChars ++ q :: body⟩ = ⟨jsFlagsChars ++ body⟩) := by
  have hexec : ∀ t : List Char, execTest (jsFlagsChars ++ q :: t) = some q :=
    fun t => execTest_of_matchHere (matchHere_pfx q t hq)
  constructor
  · show (⟨sanitizeJSFlagsL (jsFlagsChars ++ q :: (body ++ [q]))⟩ : String) = _
    have hl : sanitizeJSFlagsL (jsFlagsChars ++ q :: (body ++ [q]))
        = jsFlagsChars ++ body := by
      simp only [sanitizeJSFlagsL, hexec, replaceStart_prefix_quote]
      unfold stripEnd
      rw [show jsFlagsChars ++ (body ++ [q]) = (jsFlagsChars ++ body) ++ [q] by simp]
      rw [List.getLast?_concat, if_pos rfl, List.dropLast_concat]
    rw [hl]
  · intro hlast
    show (⟨sanitizeJSFlagsL (jsFlagsChars ++ q :: body)⟩ : String) = _
    have hl : sanitizeJSFlagsL (jsFlagsChars ++ q :: body) = jsFlagsChars ++ body := by
      simp only [sanitizeJSFlagsL, hexec, replaceStart_prefix_quote]
      have hne : ¬((jsFlagsChars ++ body).getLast? = some q) := by
        rw [List.getLast?_append]
        cases hb : body.getLast? with
        | some b =>
          rw [Option.or_some]
          rw [hb] at hlast
          exact hlast
        | none =>
          rw [Option.none_or]
          have hget : jsFlagsChars.getLast? = some '=' := rfl
          rw [hget]
          intro hcontra
          injection hcontra with hcq
          subst hcq
          exact absurd hq (by decide)
      unfold stripEnd
      rw [if_neg hne]
    rw [hl]

/-- Counterexample for C3 as frozen: the flag with unterminated quoting
`--js-flags='--foo` is not returned unchanged — the leading quote is
stripped anyway. -/
theorem sanitizeJSFlags_unterminated_changed :
    sanitizeJSFlags ⟨"--js-flags=".data ++ '\'' :: "--foo".data⟩
      ≠ ⟨"--js-flags=".data ++ '\'' :: "--foo".data⟩ := by decide

/-- Closed witness for C3: both quoted and unterminated concrete flags. -/
theorem sanitizeJSFlags_spec_witness :
    sanitizeJSFlags ⟨jsFlagsChars ++ '\'' :: ("--foo".data ++ ['\''])⟩
      = ⟨jsFlagsChars ++ "--foo".data⟩
    ∧ sanitizeJSFlags ⟨jsFlagsChars ++ '\'' :: "--foo".data⟩
      = ⟨jsFlagsChars ++ "--foo".data⟩ :=
  ⟨(sanitizeJSFlags_spec '\'' "--foo".data (by decide)).1,
   (sanitizeJSFlags_spec '\'' "--foo".data (by decide)).2 (by decide)⟩

/-- Claim C4 (amended): a flag that nowhere contains `--js-flags=`
immediately followed by a single or double quote is returned unchanged
by `sanitizeJSFlags`; merely not beginning with `--js-flags=` is not
enough, because the regex matches anywhere in the string
(src/index.js lines 14-23). -/
theorem sanitizeJSFlags_id_of_no_match (flag : String)
    (h1 : containsSub (jsFlagsChars ++ ['\'']) flag.data = false)
    (h2 : containsSub (jsFlagsChars ++ ['"']) flag.data = false) :
    sanitizeJSFlags flag = flag := by
  apply sanitizeJSFlags_eq_self_of_execTest_none
  cases hq : execTest flag.data with
  | none => rfl
  | some q =>
    obtain ⟨hquote, hc⟩ := execTest_some hq
    have hq2 : q = '\'' ∨ q = '"' := by
      simp [isQuoteChar] at hquote
      exact hquote
    rcases hq2 with rfl | rfl
    · rw [hc] at h1
      simp at h1
    · rw [hc] at h2
      simp at h2

/-- Counterexample for C4 as frozen: `a--js-flags='b'` does not begin
with the prefix, yet `sanitizeJSFlags` rewrites it. -/
theorem sanitizeJSFlags_changed_midstring :
    isJSFlags ⟨'a' :: "--js-flags=".data ++ '\'' :: "b".data ++ ['\'']⟩ = false
    ∧ sanitizeJSFlags ⟨'a' :: "--js-flags=".data ++ '\'' :: "b".data ++ ['\'']⟩
        ≠ ⟨'a' :: "--js-flags=".data ++ '\'' :: "b".data ++ ['\'']⟩ := by decide

/-- Closed witness for C4: a plain flag is untouched. -/
theorem sanitizeJSFlags_id_witness : sanitizeJSFlags "--headless" = "--headless" :=
  sanitizeJSFlags_id_of_no_match "--headless" (by decide) (by decide)

/-- Claim C5 (amended): `sanitizeJSFlags` is idempotent on every flag
containing at most one quote character; a flag with nested quotes right
after the prefix can be stripped further by a second application
(src/index.js lines 14-23). -/
theorem sanitizeJSFlags_idempotent_of_few_quotes (flag : String)
    (h : flag.data.countP isQuoteChar ≤ 1) :
    sanitizeJSFlags (sanitizeJSFlags flag) = sanitizeJSFlags flag := by
  cases hq : execTest flag.data with
  | none =>
    rw [sanitizeJSFlags_eq_self_of_execTest_none hq]
    exact sanitizeJSFlags_eq_self_of_execTest_none hq
  | some q =>
    have hzero : (sanitizeJSFlagsL flag.data).countP isQuoteChar = 0 := by
      have := sanitizeJSFlagsL_countP hq
      omega
    exact sanitizeJSFlags_eq_self_of_execTest_none
      (execTest_none_of_countP_zero hzero)

/-- Counterexample for C5 as frozen: on `--js-flags=''--x''` a second
application strips further quotes. -/
theorem sanitizeJSFlags_not_idempotent :
    sanitizeJSFlags
        (sanitizeJSFlags ⟨"--js-flags=".data ++ '\'' :: '\'' :: "--x".data ++ ['\'', '\'']⟩)
      ≠ sanitizeJSFlags ⟨"--js-flags=".data ++ '\'' :: '\'' :: "--x".data ++ ['\'', '\'']⟩ := by
  decide

/-- Closed witness for C5: one-quote flag, idempotent. -/
theorem sanitizeJSFlags_idempotent_witness :
    sanitizeJSFlags (sanitizeJSFlags ⟨"--js-flags=".data ++ '\'' :: "--x".data⟩)
      = sanitizeJSFlags ⟨"--js-flags=".data ++ '\'' :: "--x".data⟩ :=
  sanitizeJSFlags_idempotent_of_few_quotes ⟨"--js-flags=".data ++ '\'' :: "--x".data⟩
    (by decide)

/-- Claim C6: the headless builder appends `--headless`,
`--disable-gpu`, `--disable-dev-shm-usage` (plus `--no-sandbox` under
WSL) to the parent options and appends `--remote-debugging-port=9222`
as the final element exactly when no merged flag contains
`--remote-debugging-port=`; with empty user flags the result contains
the three flags and ends with the default port flag, and supplying
`--remote-debugging-port=1234` suppresses the default
(src/index.js lines 137-149). -/
theorem headless_options_spec (base : List String) (wsl : Bool) :
    ((base ++ headlessExtras ++ (if wsl then ["--no-sandbox"] else [])).any
        isRemoteDebuggingFlag = false →
      getHeadlessOptions base wsl =
        base ++ headlessExtras ++ (if wsl then ["--no-sandbox"] else [])
          ++ ["--remote-debugging-port=9222"])
    ∧ ((base ++ headlessExtras ++ (if wsl then ["--no-sandbox"] else [])).any
        isRemoteDebuggingFlag = true →
      getHeadlessOptions base wsl =
        base ++ headlessExtras ++ (if wsl then ["--no-sandbox"] else []))
    ∧ (getHeadlessOptions (edgeGetOptions []) wsl).getLast?
        = some "--remote-debugging-port=9222"
    ∧ "--headless" ∈ getHeadlessOptions (edgeGetOptions []) wsl
    ∧ "--disable-gpu" ∈ getHeadlessOptions (edgeGetOptions []) wsl
    ∧ "--disable-dev-shm-usage" ∈ getHeadlessOptions (edgeGetOptions []) wsl
    ∧ getHeadlessOptions (edgeGetOptions ["--remote-debugging-port=1234"]) wsl
        = edgeGetOptions ["--remote-debugging-port=1234"] ++ headlessExtras
          ++ (if wsl then ["--no-sandbox"] else []) := by
  have hm : (if wsl then base ++ headlessExtras ++ ["--no-sandbox"]
        else base ++ headlessExtras)
      = base ++ headlessExtras ++ (if wsl then ["--no-sandbox"] else []) := by
    cases wsl <;> simp
  refine ⟨?_, ?_, ?_, ?_, ?_, ?_, ?_⟩
  · intro h
    simp only [getHeadlessOptions]
    rw [hm, if_neg (by rw [h]; simp)]
  · intro h
    simp only [getHeadlessOptions]
    rw [hm, if_pos h]
  · cases wsl <;> decide
  · cases wsl <;> decide
  · cases wsl <;> decide
  · cases wsl <;> decide
  · cases wsl <;> decide

/-- Closed witness for C6: with no port flag, the default port is
appended after the three headless flags. -/
theorem headless_options_spec_witness :
    getHeadlessOptions [] false =
      [] ++ headlessExtras ++ (if false then ["--no-sandbox"] else [])
        ++ ["--remote-debugging-port=9222"] :=
  (headless_options_spec [] false).1 (by decide)

theorem canaryStep_nojs (flags : List String) (acc : Option String)
    (h : ∀ f ∈ flags, isJSFlags f = false) :
    flags.foldl (fun acc flag =>
        if isJSFlags flag then some (sanitizeJSFlags flag ++ " " ++ customFlags)
        else acc) acc = acc := by
  induction flags generalizing acc with
  | nil => rfl
  | cons f fs ih =>
    rw [List.foldl_cons, if_neg (by simp [h f (List.mem_cons_self f fs)])]
    exact ih acc fun g hg => h g (List.mem_cons_of_mem f hg)

theorem canaryAugmented_single (pre post : List String) (e : String)
    (hpre : ∀ f ∈ pre, isJSFlags f = false)
    (hpost : ∀ f ∈ post, isJSFlags f = false)
    (he : isJSFlags e = true) :
    canaryAugmented (pre ++ e :: post)
      = some (sanitizeJSFlags e ++ " " ++ customFlags) := by
  unfold canaryAugmented
  rw [List.foldl_append, canaryStep_nojs pre none hpre, List.foldl_cons, if_pos he]
  exact canaryStep_nojs post _ hpost

theorem sanitized_with_customFlags_ne_empty (s : String) :
    s ++ " " ++ customFlags ≠ "" := by
  intro hcontra
  have hdata : (s.data ++ " ".data) ++ customFlags.data = [] :=
    congrArg String.data hcontra
  rcases List.append_eq_nil.mp hdata with ⟨hleft, hright⟩
  exact absurd hright (by decide)

theorem jsOrElse_some_ne (s d : String) (h : s ≠ "") : jsOrElse (some s) d = s := by
  show (if s = "" then d else s) = s
  rw [if_neg h]

/-- Claim C7: the canary builder with empty user flags appends exactly
one new flag `--js-flags=--nocrankshaft --noopt`; with user flags
containing one `--js-flags=` entry it appends that entry sanitized and
suffixed with the two workaround tokens (src/index.js lines 151-164). -/
theorem canary_options_spec (parentOpts pre post : List String) (e : String)
    (hpre : ∀ f ∈ pre, isJSFlags f = false)
    (hpost : ∀ f ∈ post, isJSFlags f = false)
    (he : isJSFlags e = true) :
    getCanaryOptions parentOpts [] = parentOpts ++ ["--js-flags=--nocrankshaft --noopt"]
    ∧ getCanaryOptions parentOpts [⟨"--js-flags=".data ++ '\'' :: "--x".data ++ ['\'']⟩]
        = parentOpts ++ ["--js-flags=--x --nocrankshaft --noopt"]
    ∧ getCanaryOptions parentOpts (pre ++ e :: post)
        = parentOpts ++ [sanitizeJSFlags e ++ " " ++ customFlags] := by
  refine ⟨?_, ?_, ?_⟩
  · exact congrArg (fun l => parentOpts ++ l) (by decide)
  · exact congrArg (fun l => parentOpts ++ l) (by decide)
  · unfold getCanaryOptions
    rw [canaryAugmented_single pre post e hpre hpost he,
      jsOrElse_some_ne _ _ (sanitized_with_customFlags_ne_empty _)]

/-- Closed witness for C7: a single unquoted js-flags entry is
sanitized (unchanged) and suffixed. -/
theorem canary_options_spec_witness :
    getCanaryOptions [] ([] ++ "--js-flags=abc" :: [])
      = [] ++ [sanitizeJSFlags "--js-flags=abc" ++ " " ++ customFlags] :=
  (canary_options_spec [] [] [] "--js-flags=abc"
    (fun f hf => absurd hf (List.not_mem_nil f))
    (fun f hf => absurd hf (List.not_mem_nil f))
    (by decide)).2.2

/-- Claim C8: on native Windows with all three probed install locations
absent, `getEdgeExe` returns the last computed candidate path string
and never `null` (src/index.js lines 42-66). -/
theorem getEdgeExe_fallback (fsAccess : String → Bool)
    (lad pf pf86 edgeDirName : String)
    (h1 : fsAccess (pathJoinWin lad (edgeExeSuffix edgeDirName)) = false)
    (h2 : fsAccess (pathJoinWin pf (edgeExeSuffix edgeDirName)) = false)
    (h3 : fsAccess (pathJoinWin pf86 (edgeExeSuffix edgeDirName)) = false) :
    getEdgeExe true fsAccess (some lad) (some pf) (some pf86) edgeDirName
      = some (pathJoinWin pf86 (edgeExeSuffix edgeDirName))
    ∧ getEdgeExe true fsAccess (some lad) (some pf) (some pf86) edgeDirName ≠ none := by
  have hrun : getEdgeExe true fsAccess (some lad) (some pf) (some pf86) edgeDirName
      = some (pathJoinWin pf86 (edgeExeSuffix edgeDirName)) := by
    simp [getEdgeExe, getEdgeExeLoop, h1, h2, h3]
  refine ⟨hrun, ?_⟩
  rw [hrun]
  simp

/-- Closed witness for C8: an always-failing access probe yields the
last candidate. -/
theorem getEdgeExe_fallback_witness :
    getEdgeExe true (fun _ => false) (some "appdata") (some "pf") (some "pf86") "Edge"
      = some (pathJoinWin "pf86" (edgeExeSuffix "Edge")) :=
  (getEdgeExe_fallback (fun _ => false) "appdata" "pf" "pf86" "Edge" rfl rfl rfl).1

/-- Claim C9, evaluated at the failing input: the PID recovery of the
stderr handler is sensitive to chunk boundaries — the sentinel line as
one chunk recovers PID 123, the same bytes split across two chunks
recover no PID, and a split inside the digits recovers the wrong
PID 1 (src/index.js lines 280-292). -/
theorem pid_recovery_chunk_sensitive :
    processStderrChunks ["BROWSERBROWSERBROWSERBROWSER debug me @ 123".data] = some 123
    ∧ processStderrChunks
        ["BROWSERBROWSERBROWSERBROW".data, "SER debug me @ 123".data] = none
    ∧ processStderrChunks
        ["BROWSERBROWSERBROWSERBROWSER debug me @ 1".data, "23".data] = some 1 := by
  decide

/-- Counterexample for C10 as frozen: one `_getOptions` call rewrites
the caller's quoted `--js-flags` entry in place. -/
theorem getOptions_mutates_flags :
    flagsAfterGetOptions [⟨"--js-flags=".data ++ '\'' :: "--x".data ++ ['\'']⟩]
      ≠ [⟨"--js-flags=".data ++ '\'' :: "--x".data ++ ['\'']⟩] := by decide

/-- Claim C10 (amended): a `_getOptions` call rewrites the caller's
flags array elementwise — each entry beginning with `--js-flags=` is
replaced by its sanitized form, every other entry keeps its value, and
the length is unchanged (src/index.js lines 174-198). -/
theorem getOptions_flags_elementwise (flags : List String) :
    (flagsAfterGetOptions flags).length = flags.length
    ∧ ∀ i : Nat, (flagsAfterGetOptions flags)[i]? =
        (flags[i]?).map (fun f => if isJSFlags f then sanitizeJSFlags f else f) :=
  ⟨List.length_map flags _, fun i => List.getElem?_map _ flags i⟩

end KarmaEdge
